import Mathlib

/-!
Shallow embedding of the coupon-system repository (Go + PostgreSQL).

The store is a pair of relations, `coupons` and `claims`, mirroring the SQL
schema in the migration file: `coupons` has a UNIQUE name column, `claims` has
a UNIQUE (user_id, coupon_name) pair and a foreign key to `coupons(name)`,
with SERIAL ids.  Timestamps are modelled as naturals supplied by the caller
(the database's CURRENT_TIMESTAMP / NOW()).  Infrastructure failures of the
driver (connection loss, commit failure, ...) are modelled by explicit fault
flags; the SQL statements of `internal/repository/coupon_repository.go` are
translated statement by statement, and the transaction in `ClaimCoupon` is
modelled by building the candidate post-state and publishing it only on
commit (every error path returns the caller's original state: rollback).
-/

/-- Row of the `coupons` table (models.Coupon). -/
structure Coupon where
  id : Nat
  name : String
  amount : Int
  remaining_amount : Int
  created_at : Nat
  updated_at : Nat
  deriving DecidableEq, Repr

/-- Row of the `claims` table (models.Claim). -/
structure Claim where
  id : Nat
  user_id : String
  coupon_name : String
  claimed_at : Nat
  deriving DecidableEq, Repr

/-- Request body for creating a coupon (models.CreateCouponRequest). -/
structure CreateCouponRequest where
  name : String
  amount : Int
  deriving DecidableEq, Repr

/-- Request body for claiming a coupon (models.ClaimCouponRequest). -/
structure ClaimCouponRequest where
  user_id : String
  coupon_name : String
  deriving DecidableEq, Repr

/-- Response for coupon details (models.CouponDetailResponse). -/
structure CouponDetailResponse where
  name : String
  amount : Int
  remaining_amount : Int
  claimed_by : List String
  deriving DecidableEq, Repr

/-- Errors returned by the Go code: the four sentinel errors of the
repository package, wrapped infrastructure errors (`fmt.Errorf`), and the
validation errors produced by the service layer (`errors.New`). -/
inductive GoErr where
  | couponNotFound
  | couponAlreadyExists
  | alreadyClaimed
  | noStockAvailable
  | infra (msg : String)
  | validation (msg : String)
  deriving DecidableEq, Repr

/-- The authoritative store: both tables plus the SERIAL sequences. -/
structure DB where
  coupons : List Coupon
  claims : List Claim
  nextCouponId : Nat
  nextClaimId : Nat
  deriving DecidableEq, Repr

/-- Freshly migrated database: empty tables, sequences at 1. -/
def DB.empty : DB := { coupons := [], claims := [], nextCouponId := 1, nextClaimId := 1 }

/-- SELECT ... FROM coupons WHERE name = $1 (name is UNIQUE, so first match). -/
def findCoupon (db : DB) (name : String) : Option Coupon :=
  db.coupons.find? (fun c => c.name == name)

/-- Whether a `claims` row for (userID, couponName) exists; this is what the
UNIQUE(user_id, coupon_name) constraint consults on INSERT. -/
def hasClaim (db : DB) (userID couponName : String) : Bool :=
  db.claims.any (fun cl => cl.user_id == userID && cl.coupon_name == couponName)

/-- The coupon row inserted by `CreateCoupon`:
INSERT INTO coupons (name, amount, remaining_amount) VALUES ($1, $2, $2). -/
def newCoupon (db : DB) (name : String) (amount : Int) (now : Nat) : Coupon :=
  { id := db.nextCouponId, name := name, amount := amount, remaining_amount := amount,
    created_at := now, updated_at := now }

/-- The claim row inserted by `ClaimCoupon`:
INSERT INTO claims (user_id, coupon_name) VALUES ($1, $2). -/
def newClaim (db : DB) (userID couponName : String) (now : Nat) : Claim :=
  { id := db.nextClaimId, user_id := userID, coupon_name := couponName, claimed_at := now }

/-- Effect on one coupon row of
UPDATE coupons SET remaining_amount = remaining_amount - 1,
updated_at = CURRENT_TIMESTAMP WHERE name = $1. -/
def claimUpdateRow (couponName : String) (now : Nat) (c : Coupon) : Coupon :=
  if c.name == couponName then
    { c with remaining_amount := c.remaining_amount - 1, updated_at := now }
  else c

/-- Effect on one coupon row of
UPDATE coupons SET updated_at = NOW() WHERE name = $1. -/
def touchRow (name : String) (now : Nat) (c : Coupon) : Coupon :=
  if c.name == name then { c with updated_at := now } else c

/-- Fault injection for the five fallible driver calls inside `ClaimCoupon`:
Begin, the locked SELECT, the INSERT, the UPDATE, and Commit. -/
structure ClaimFaults where
  beginFail : Bool
  selectFail : Bool
  insertFail : Bool
  updateFail : Bool
  commitFail : Bool
  deriving DecidableEq, Repr

/-- A fault-free run of the claim transaction. -/
def ClaimFaults.noFaults : ClaimFaults :=
  { beginFail := false, selectFail := false, insertFail := false,
    updateFail := false, commitFail := false }

namespace repository

/-- `couponRepository.CreateCoupon`: single INSERT; a uniqueness-constraint
violation (pq error 23505, i.e. a coupon with that name exists) is mapped to
`ErrCouponAlreadyExists`; any other driver error is wrapped. -/
def CreateCoupon (db : DB) (execFail : Bool) (name : String) (amount : Int) (now : Nat) :
    Option GoErr × DB :=
  if db.coupons.any (fun c => c.name == name) then
    (some GoErr.couponAlreadyExists, db)
  else if execFail then
    (some (GoErr.infra "error creating coupon"), db)
  else
    (none, { db with coupons := db.coupons ++ [newCoupon db name amount now],
                     nextCouponId := db.nextCouponId + 1 })

/-- `couponRepository.ClaimCoupon`: transaction with deferred rollback.
Steps: Begin; SELECT remaining_amount ... FOR UPDATE (no row means
`ErrCouponNotFound`); stock check (`ErrNoStockAvailable`); INSERT INTO claims
(a 23505 uniqueness violation, i.e. the (user, coupon) pair already has a row,
means `ErrAlreadyClaimed`); UPDATE the coupon row; Commit.  Every error path
returns the original state (rollback); only Commit publishes the new state. -/
def ClaimCoupon (db : DB) (f : ClaimFaults) (userID couponName : String) (now : Nat) :
    Option GoErr × DB :=
  if f.beginFail then (some (GoErr.infra "error starting transaction"), db)
  else if f.selectFail then (some (GoErr.infra "error checking coupon"), db)
  else
    match findCoupon db couponName with
    | none => (some GoErr.couponNotFound, db)
    | some c =>
      if c.remaining_amount ≤ 0 then (some GoErr.noStockAvailable, db)
      else if f.insertFail then (some (GoErr.infra "error creating claim"), db)
      else if hasClaim db userID couponName then (some GoErr.alreadyClaimed, db)
      else
        let txInserted : DB :=
          { db with claims := db.claims ++ [newClaim db userID couponName now],
                    nextClaimId := db.nextClaimId + 1 }
        if f.updateFail then (some (GoErr.infra "error updating coupon stock"), db)
        else
          let txUpdated : DB :=
            { txInserted with
              coupons := txInserted.coupons.map (claimUpdateRow couponName now) }
          if f.commitFail then (some (GoErr.infra "error committing transaction"), db)
          else (none, txUpdated)

/-- `couponRepository.GetCouponByName`: non-locking reads; the coupon row, then
SELECT user_id FROM claims WHERE coupon_name = $1 ORDER BY claimed_at ASC. -/
def GetCouponByName (db : DB) (name : String) : Except GoErr CouponDetailResponse :=
  match findCoupon db name with
  | none => Except.error GoErr.couponNotFound
  | some coupon =>
    Except.ok
      { name := coupon.name, amount := coupon.amount,
        remaining_amount := coupon.remaining_amount,
        claimed_by :=
          (List.insertionSort (fun a b => a.claimed_at ≤ b.claimed_at)
            (db.claims.filter (fun cl => cl.coupon_name == name))).map
            (fun cl => cl.user_id) }

/-- `couponRepository.Update`: UPDATE coupons SET updated_at = NOW() WHERE
name = $1, returning the rows-affected count; a driver failure is wrapped.
Note it never returns `ErrCouponNotFound`: a missing row just yields count 0. -/
def Update (db : DB) (execFail : Bool) (name : String) (now : Nat) :
    (Int × Option GoErr) × DB :=
  if execFail then ((0, some (GoErr.infra "update failed")), db)
  else
    (((db.coupons.filter (fun c => c.name == name)).length, none),
     { db with coupons := db.coupons.map (touchRow name now) })

end repository

namespace service

/-- `couponService.CreateCoupon`: validation, then the repository call. -/
def CreateCoupon (db : DB) (execFail : Bool) (req : CreateCouponRequest) (now : Nat) :
    Option GoErr × DB :=
  if req.name == "" then (some (GoErr.validation "coupon name is required"), db)
  else if req.amount ≤ 0 then
    (some (GoErr.validation "coupon amount must be greater than 0"), db)
  else repository.CreateCoupon db execFail req.name req.amount now

/-- `couponService.ClaimCoupon`: validation, then the repository call. -/
def ClaimCoupon (db : DB) (f : ClaimFaults) (req : ClaimCouponRequest) (now : Nat) :
    Option GoErr × DB :=
  if req.user_id == "" then (some (GoErr.validation "user_id is required"), db)
  else if req.coupon_name == "" then
    (some (GoErr.validation "coupon_name is required"), db)
  else repository.ClaimCoupon db f req.user_id req.coupon_name now

/-- `couponService.GetCouponDetails`: validation, then the repository call. -/
def GetCouponDetails (db : DB) (name : String) : Except GoErr CouponDetailResponse :=
  if name == "" then Except.error (GoErr.validation "coupon name is required")
  else repository.GetCouponByName db name

/-- `couponService.UpdateCoupon`: validation, then the repository call. -/
def UpdateCoupon (db : DB) (execFail : Bool) (name : String) (now : Nat) :
    (Int × Option GoErr) × DB :=
  if name == "" then ((0, some (GoErr.validation "coupon name is required")), db)
  else repository.Update db execFail name now

end service

/-- One request hitting the store, as dispatched by the HTTP handlers to the
service layer (POST /coupons, POST /coupons/claim, GET /coupons/name,
PUT-or-PATCH /coupons/name). -/
inductive Op where
  | create (execFail : Bool) (req : CreateCouponRequest)
  | claim (f : ClaimFaults) (req : ClaimCouponRequest)
  | getDetails (name : String)
  | update (execFail : Bool) (name : String)
  deriving DecidableEq, Repr

/-- State of the store after serving one request at database time `now`. -/
def applyOp (db : DB) (op : Op) (now : Nat) : DB :=
  match op with
  | Op.create execFail req => (service.CreateCoupon db execFail req now).2
  | Op.claim f req => (service.ClaimCoupon db f req now).2
  | Op.getDetails _ => db
  | Op.update execFail name => (service.UpdateCoupon db execFail name now).2

/-- Store states reachable from a fresh database by serving requests at
strictly increasing database timestamps; the `Nat` component bounds every
timestamp already written (the next request happens no earlier). -/
inductive Reachable : DB → Nat → Prop where
  | init : Reachable DB.empty 0
  | step {db : DB} {t : Nat} (op : Op) (now : Nat) :
      Reachable db t → t ≤ now → Reachable (applyOp db op now) (now + 1)

/-- Store invariant maintained by every operation: the two SQL uniqueness
constraints, the stock bounds, the bookkeeping identity between the ledger and
the stock counter, strictly increasing claim timestamps, and the foreign key
from claims to coupons. -/
structure StoreInv (db : DB) (t : Nat) : Prop where
  namesNodup : db.coupons.Pairwise (fun a b => a.name ≠ b.name)
  pairsNodup : db.claims.Pairwise
    (fun a b => a.user_id ≠ b.user_id ∨ a.coupon_name ≠ b.coupon_name)
  remNonneg : ∀ c ∈ db.coupons, 0 ≤ c.remaining_amount
  remLeAmount : ∀ c ∈ db.coupons, c.remaining_amount ≤ c.amount
  claimCount : ∀ c ∈ db.coupons,
    ((db.claims.filter (fun cl => cl.coupon_name == c.name)).length : Int)
      = c.amount - c.remaining_amount
  timesMono : db.claims.Pairwise (fun a b => a.claimed_at < b.claimed_at)
  timesLt : ∀ cl ∈ db.claims, cl.claimed_at < t
  claimHasCoupon : ∀ cl ∈ db.claims, ∃ c ∈ db.coupons, c.name = cl.coupon_name

/-- The state published by a committed claim transaction. -/
def claimSuccessState (db : DB) (userID couponName : String) (now : Nat) : DB :=
  { db with
    coupons := db.coupons.map (claimUpdateRow couponName now),
    claims := db.claims ++ [newClaim db userID couponName now],
    nextClaimId := db.nextClaimId + 1 }

/-- Example trace: create FLASH25 with quantity 2 at time 0. -/
def exDb1 : DB := applyOp DB.empty (Op.create false { name := "FLASH25", amount := 2 }) 0

/-- Example trace: alice then claims FLASH25 at time 1. -/
def exDb2 : DB :=
  applyOp exDb1 (Op.claim ClaimFaults.noFaults { user_id := "alice", coupon_name := "FLASH25" }) 1

/-- Example trace: create SOLO with quantity 1 at time 0. -/
def exSolo1 : DB := applyOp DB.empty (Op.create false { name := "SOLO", amount := 1 }) 0

/-- Example trace: carol claims the single SOLO unit at time 1, exhausting it. -/
def exSolo2 : DB :=
  applyOp exSolo1 (Op.claim ClaimFaults.noFaults { user_id := "carol", coupon_name := "SOLO" }) 1

/-- Example trace: create BOGO with quantity 1 at time 0. -/
def exBogo1 : DB := applyOp DB.empty (Op.create false { name := "BOGO", amount := 1 }) 0

/-- Example trace: bob claims the single BOGO unit at time 1, exhausting it. -/
def exBogo2 : DB :=
  applyOp exBogo1 (Op.claim ClaimFaults.noFaults { user_id := "bob", coupon_name := "BOGO" }) 1

/-- The FLASH25 row as it stands in `exDb1` (freshly created). -/
def exCoupon1 : Coupon :=
  { id := 1, name := "FLASH25", amount := 2, remaining_amount := 2,
    created_at := 0, updated_at := 0 }

/-- The FLASH25 row as it stands in `exDb2` (one unit claimed). -/
def exCoupon2 : Coupon :=
  { id := 1, name := "FLASH25", amount := 2, remaining_amount := 1,
    created_at := 0, updated_at := 1 }

/-- The SOLO row as it stands in `exSolo2` (stock exhausted). -/
def exSoloCoupon : Coupon :=
  { id := 1, name := "SOLO", amount := 1, remaining_amount := 0,
    created_at := 0, updated_at := 1 }

theorem claimUpdateRow_name (o : String) (now : Nat) (c : Coupon) :
    (claimUpdateRow o now c).name = c.name := by
  unfold claimUpdateRow; split <;> rfl

theorem claimUpdateRow_amount (o : String) (now : Nat) (c : Coupon) :
    (claimUpdateRow o now c).amount = c.amount := by
  unfold claimUpdateRow; split <;> rfl

theorem claimUpdateRow_created_at (o : String) (now : Nat) (c : Coupon) :
    (claimUpdateRow o now c).created_at = c.created_at := by
  unfold claimUpdateRow; split <;> rfl

theorem claimUpdateRow_of_name_eq {o : String} {now : Nat} {c : Coupon} (h : c.name = o) :
    claimUpdateRow o now c =
      { c with remaining_amount := c.remaining_amount - 1, updated_at := now } := by
  unfold claimUpdateRow; simp [h]

theorem claimUpdateRow_of_name_ne {o : String} {now : Nat} {c : Coupon} (h : c.name ≠ o) :
    claimUpdateRow o now c = c := by
  unfold claimUpdateRow; simp [h]

theorem touchRow_name (o : String) (now : Nat) (c : Coupon) :
    (touchRow o now c).name = c.name := by
  unfold touchRow; split <;> rfl

theorem touchRow_amount (o : String) (now : Nat) (c : Coupon) :
    (touchRow o now c).amount = c.amount := by
  unfold touchRow; split <;> rfl

theorem touchRow_remaining (o : String) (now : Nat) (c : Coupon) :
    (touchRow o now c).remaining_amount = c.remaining_amount := by
  unfold touchRow; split <;> rfl

theorem touchRow_of_name_eq {o : String} {now : Nat} {c : Coupon} (h : c.name = o) :
    touchRow o now c = { c with updated_at := now } := by
  unfold touchRow; simp [h]

theorem findCoupon_mem {db : DB} {o : String} {c : Coupon} (h : findCoupon db o = some c) :
    c ∈ db.coupons :=
  List.mem_of_find?_eq_some h

theorem findCoupon_name {db : DB} {o : String} {c : Coupon} (h : findCoupon db o = some c) :
    c.name = o := by
  have := List.find?_some h
  simpa using this

theorem findCoupon_eq_none {db : DB} {o : String} :
    findCoupon db o = none ↔ ∀ c ∈ db.coupons, c.name ≠ o := by
  unfold findCoupon
  rw [List.find?_eq_none]
  simp

theorem find?_map_name (l : List Coupon) (f : Coupon → Coupon)
    (hf : ∀ c, (f c).name = c.name) (o : String) :
    (l.map f).find? (fun c => c.name == o) = (l.find? (fun c => c.name == o)).map f := by
  induction l with
  | nil => rfl
  | cons a l ih =>
    by_cases hao : a.name = o
    · have h1 : ((f a).name == o) = true := by simp [hf, hao]
      have h2 : (a.name == o) = true := by simp [hao]
      rw [List.map_cons,
        @List.find?_cons_of_pos _ (fun c => c.name == o) (f a) (l.map f) h1,
        @List.find?_cons_of_pos _ (fun c => c.name == o) a l h2, Option.map]
    · have h1 : ((f a).name == o) = false := by simp [hf, hao]
      have h2 : (a.name == o) = false := by simp [hao]
      rw [List.map_cons,
        @List.find?_cons_of_neg _ (fun c => c.name == o) (f a) (l.map f) (by simp [h1]),
        @List.find?_cons_of_neg _ (fun c => c.name == o) a l (by simp [h2]), ih]

theorem eq_of_pairwise_names {l : List Coupon}
    (hp : l.Pairwise (fun a b => a.name ≠ b.name)) {x y : Coupon}
    (hx : x ∈ l) (hy : y ∈ l) (hxy : x.name = y.name) : x = y := by
  induction l with
  | nil => cases hx
  | cons a l ih =>
    rcases List.pairwise_cons.mp hp with ⟨ha, hl⟩
    rcases List.mem_cons.mp hx with hx1 | hx1 <;> rcases List.mem_cons.mp hy with hy1 | hy1
    · rw [hx1, hy1]
    · exact absurd (hx1 ▸ hxy) (ha y hy1)
    · exact absurd (hy1 ▸ hxy).symm (ha x hx1)
    · exact ih hl hx1 hy1

theorem filter_name_eq_singleton {l : List Coupon} {o : String}
    (hn : l.Pairwise (fun a b => a.name ≠ b.name)) {c : Coupon}
    (hf : l.find? (fun x => x.name == o) = some c) :
    l.filter (fun x => x.name == o) = [c] := by
  induction l with
  | nil => simp at hf
  | cons a l ih =>
    rcases List.pairwise_cons.mp hn with ⟨ha, hl⟩
    by_cases hao : a.name = o
    · rw [@List.find?_cons_of_pos _ (fun x => x.name == o) a l (by simp [hao])] at hf
      cases hf
      rw [List.filter_cons_of_pos (by simp [hao])]
      have : l.filter (fun x => x.name == o) = [] := by
        rw [List.filter_eq_nil_iff]
        intro x hx
        simp only [beq_iff_eq]
        intro hxo
        exact ha x hx (hao.trans hxo.symm)
      rw [this]
    · rw [@List.find?_cons_of_neg _ (fun x => x.name == o) a l (by simp [hao])] at hf
      rw [List.filter_cons_of_neg (by simp [hao])]
      exact ih hl hf

theorem hasClaim_eq_false {db : DB} {u o : String} :
    hasClaim db u o = false ↔
      ∀ cl ∈ db.claims, ¬(cl.user_id = u ∧ cl.coupon_name = o) := by
  unfold hasClaim
  rw [List.any_eq_false]
  simp

theorem hasClaim_eq_true {db : DB} {u o : String} :
    hasClaim db u o = true ↔
      ∃ cl ∈ db.claims, cl.user_id = u ∧ cl.coupon_name = o := by
  unfold hasClaim
  rw [List.any_eq_true]
  simp

theorem ClaimCoupon_eq_notFound {db : DB} {u o : String} {now : Nat}
    (h : findCoupon db o = none) :
    repository.ClaimCoupon db ClaimFaults.noFaults u o now = (some GoErr.couponNotFound, db) := by
  simp [repository.ClaimCoupon, ClaimFaults.noFaults, h]

theorem ClaimCoupon_eq_outOfStock {db : DB} {u o : String} {now : Nat} {c : Coupon}
    (hf : findCoupon db o = some c) (hr : c.remaining_amount ≤ 0) :
    repository.ClaimCoupon db ClaimFaults.noFaults u o now =
      (some GoErr.noStockAvailable, db) := by
  simp [repository.ClaimCoupon, ClaimFaults.noFaults, hf, hr]

theorem ClaimCoupon_eq_alreadyClaimed {db : DB} {u o : String} {now : Nat} {c : Coupon}
    (hf : findCoupon db o = some c) (hr : 0 < c.remaining_amount)
    (hc : hasClaim db u o = true) :
    repository.ClaimCoupon db ClaimFaults.noFaults u o now =
      (some GoErr.alreadyClaimed, db) := by
  simp [repository.ClaimCoupon, ClaimFaults.noFaults, hf, hc,
    show ¬c.remaining_amount ≤ 0 by omega]

theorem ClaimCoupon_eq_success {db : DB} {u o : String} {now : Nat} {c : Coupon}
    (hf : findCoupon db o = some c) (hr : 0 < c.remaining_amount)
    (hc : hasClaim db u o = false) :
    repository.ClaimCoupon db ClaimFaults.noFaults u o now =
      (none, claimSuccessState db u o now) := by
  simp [repository.ClaimCoupon, ClaimFaults.noFaults, hf, hc, claimSuccessState,
    show ¬c.remaining_amount ≤ 0 by omega]

theorem ClaimCoupon_cases (db : DB) (f : ClaimFaults) (u o : String) (now : Nat) :
    ((repository.ClaimCoupon db f u o now).1 ≠ none
      ∧ (repository.ClaimCoupon db f u o now).2 = db)
    ∨ (∃ c, findCoupon db o = some c ∧ 0 < c.remaining_amount ∧ hasClaim db u o = false
        ∧ repository.ClaimCoupon db f u o now = (none, claimSuccessState db u o now)) := by
  unfold repository.ClaimCoupon
  by_cases hb : f.beginFail = true
  · exact Or.inl (by simp [hb])
  by_cases hsel : f.selectFail = true
  · exact Or.inl (by simp [hb, hsel])
  cases hfind : findCoupon db o with
  | none => exact Or.inl (by simp [hb, hsel, hfind])
  | some c =>
    by_cases hrem : c.remaining_amount ≤ 0
    · exact Or.inl (by simp [hb, hsel, hfind, hrem])
    by_cases hins : f.insertFail = true
    · exact Or.inl (by simp [hb, hsel, hfind, hrem, hins])
    by_cases hcl : hasClaim db u o = true
    · exact Or.inl (by simp [hb, hsel, hfind, hrem, hins, hcl])
    by_cases hupd : f.updateFail = true
    · exact Or.inl (by simp [hb, hsel, hfind, hrem, hins, hcl, hupd])
    by_cases hcom : f.commitFail = true
    · exact Or.inl (by simp [hb, hsel, hfind, hrem, hins, hcl, hupd, hcom])
    · refine Or.inr ⟨c, rfl, by omega, by simpa using hcl, ?_⟩
      simp [hb, hsel, hfind, hrem, hins, hcl, hupd, hcom, claimSuccessState]

theorem CreateCoupon_of_exists {db : DB} {name : String} (amount : Int) (now : Nat)
    (ef : Bool) (h : ∃ c ∈ db.coupons, c.name = name) :
    repository.CreateCoupon db ef name amount now = (some GoErr.couponAlreadyExists, db) := by
  have : db.coupons.any (fun c => c.name == name) = true := by
    rw [List.any_eq_true]; simpa using h
  simp [repository.CreateCoupon, this]

theorem CreateCoupon_of_fresh {db : DB} {name : String} (amount : Int) (now : Nat)
    (h : ∀ c ∈ db.coupons, c.name ≠ name) :
    repository.CreateCoupon db false name amount now =
      (none, { db with coupons := db.coupons ++ [newCoupon db name amount now],
                       nextCouponId := db.nextCouponId + 1 }) := by
  have : db.coupons.any (fun c => c.name == name) = false := by
    rw [List.any_eq_false]; simpa using h
  simp [repository.CreateCoupon, this]

theorem Update_eq (db : DB) (name : String) (now : Nat) :
    repository.Update db false name now =
      (((((db.coupons.filter (fun c => c.name == name)).length : Int)), none),
       { db with coupons := db.coupons.map (touchRow name now) }) := by
  simp [repository.Update]

theorem CreateCoupon_snd_cases (db : DB) (ef : Bool) (name : String) (amount : Int) (now : Nat) :
    (repository.CreateCoupon db ef name amount now).2 = db
    ∨ ((∀ c ∈ db.coupons, c.name ≠ name)
        ∧ repository.CreateCoupon db ef name amount now =
            (none, { db with coupons := db.coupons ++ [newCoupon db name amount now],
                             nextCouponId := db.nextCouponId + 1 })) := by
  unfold repository.CreateCoupon
  by_cases h : db.coupons.any (fun c => c.name == name) = true
  · simp [h]
  · by_cases he : ef = true
    · simp [h, he]
    · refine Or.inr ⟨?_, by simp [h, he]⟩
      intro c hc hname
      exact h (List.any_eq_true.mpr ⟨c, hc, by simp [hname]⟩)

theorem Update_snd_cases (db : DB) (ef : Bool) (name : String) (now : Nat) :
    (repository.Update db ef name now).2 = db
    ∨ (repository.Update db ef name now).2 =
        { db with coupons := db.coupons.map (touchRow name now) } := by
  unfold repository.Update
  by_cases he : ef = true <;> simp [he]

theorem inv_empty : StoreInv DB.empty 0 := by
  refine ⟨?_, ?_, ?_, ?_, ?_, ?_, ?_, ?_⟩ <;> simp [DB.empty]

theorem inv_mono_t {db : DB} {t t2 : Nat} (inv : StoreInv db t) (h : t ≤ t2) :
    StoreInv db t2 :=
  ⟨inv.namesNodup, inv.pairsNodup, inv.remNonneg, inv.remLeAmount, inv.claimCount,
   inv.timesMono, fun cl hcl => lt_of_lt_of_le (inv.timesLt cl hcl) h, inv.claimHasCoupon⟩

theorem inv_create_success {db : DB} {t now : Nat} {name : String} {amount : Int}
    (inv : StoreInv db t) (hle : t ≤ now) (hpos : 0 < amount)
    (hfresh : ∀ c ∈ db.coupons, c.name ≠ name) :
    StoreInv { db with coupons := db.coupons ++ [newCoupon db name amount now],
                       nextCouponId := db.nextCouponId + 1 } (now + 1) := by
  refine ⟨?_, ?_, ?_, ?_, ?_, ?_, ?_, ?_⟩
  · rw [List.pairwise_append]
    refine ⟨inv.namesNodup, List.pairwise_singleton _ _, ?_⟩
    intro a ha b hb
    simp only [List.mem_singleton] at hb
    subst hb
    simpa [newCoupon] using hfresh a ha
  · exact inv.pairsNodup
  · intro c hc
    rcases List.mem_append.mp hc with h | h
    · exact inv.remNonneg c h
    · simp only [List.mem_singleton] at h
      subst h
      simp [newCoupon]
      omega
  · intro c hc
    rcases List.mem_append.mp hc with h | h
    · exact inv.remLeAmount c h
    · simp only [List.mem_singleton] at h
      subst h
      simp [newCoupon]
  · intro c hc
    rcases List.mem_append.mp hc with h | h
    · exact inv.claimCount c h
    · simp only [List.mem_singleton] at h
      subst h
      simp only [newCoupon]
      rw [show db.claims.filter (fun cl => cl.coupon_name == name) = [] from ?_]
      · simp
      · rw [List.filter_eq_nil_iff]
        intro cl hcl
        obtain ⟨c2, hc2, hname⟩ := inv.claimHasCoupon cl hcl
        simp only [beq_iff_eq]
        intro hco
        exact hfresh c2 hc2 (hname.symm ▸ hco)
  · exact inv.timesMono
  · intro cl hcl
    exact lt_of_lt_of_le (inv.timesLt cl hcl) (by omega)
  · intro cl hcl
    obtain ⟨c2, hc2, hname⟩ := inv.claimHasCoupon cl hcl
    exact ⟨c2, List.mem_append_left _ hc2, hname⟩

theorem inv_claim_success {db : DB} {t now : Nat} {u o : String} {c : Coupon}
    (inv : StoreInv db t) (hle : t ≤ now)
    (hf : findCoupon db o = some c) (hr : 0 < c.remaining_amount)
    (hc : hasClaim db u o = false) :
    StoreInv (claimSuccessState db u o now) (now + 1) := by
  have hcmem := findCoupon_mem hf
  have hcname := findCoupon_name hf
  refine ⟨?_, ?_, ?_, ?_, ?_, ?_, ?_, ?_⟩
  · simp only [claimSuccessState]
    rw [List.pairwise_map]
    exact inv.namesNodup.imp (fun hab => by simpa [claimUpdateRow_name] using hab)
  · simp only [claimSuccessState]
    rw [List.pairwise_append]
    refine ⟨inv.pairsNodup, List.pairwise_singleton _ _, ?_⟩
    intro a ha b hb
    simp only [List.mem_singleton] at hb
    subst hb
    have := hasClaim_eq_false.mp hc a ha
    simp only [newClaim]
    exact not_and_or.mp this
  · intro c2 hc2
    simp only [claimSuccessState, List.mem_map] at hc2
    obtain ⟨x, hx, rfl⟩ := hc2
    by_cases hxo : x.name = o
    · have hxc : x = c := eq_of_pairwise_names inv.namesNodup hx hcmem (by rw [hxo, hcname])
      rw [claimUpdateRow_of_name_eq hxo]
      have hrx : 0 < x.remaining_amount := by rw [hxc]; exact hr
      show 0 ≤ x.remaining_amount - 1
      omega
    · rw [claimUpdateRow_of_name_ne hxo]
      exact inv.remNonneg x hx
  · intro c2 hc2
    simp only [claimSuccessState, List.mem_map] at hc2
    obtain ⟨x, hx, rfl⟩ := hc2
    by_cases hxo : x.name = o
    · rw [claimUpdateRow_of_name_eq hxo]
      have := inv.remLeAmount x hx
      show x.remaining_amount - 1 ≤ x.amount
      omega
    · rw [claimUpdateRow_of_name_ne hxo]
      exact inv.remLeAmount x hx
  · intro c2 hc2
    simp only [claimSuccessState, List.mem_map] at hc2
    obtain ⟨x, hx, rfl⟩ := hc2
    have hcount := inv.claimCount x hx
    by_cases hxo : x.name = o
    · rw [claimUpdateRow_of_name_eq hxo]
      simp only [claimSuccessState, List.filter_append]
      show ((db.claims.filter (fun cl => cl.coupon_name == x.name)
              ++ [newClaim db u o now].filter (fun cl => cl.coupon_name == x.name)).length : Int)
          = x.amount - (x.remaining_amount - 1)
      rw [show [newClaim db u o now].filter (fun cl => cl.coupon_name == x.name)
            = [newClaim db u o now] from by simp [newClaim, hxo]]
      rw [List.length_append, List.length_singleton]
      push_cast
      omega
    · rw [claimUpdateRow_of_name_ne hxo]
      simp only [claimSuccessState, List.filter_append]
      have hox : ¬(o = x.name) := fun h2 => hxo h2.symm
      rw [show [newClaim db u o now].filter (fun cl => cl.coupon_name == x.name) = [] from by
        simp [newClaim, hox]]
      rw [List.append_nil]
      exact hcount
  · simp only [claimSuccessState]
    rw [List.pairwise_append]
    refine ⟨inv.timesMono, List.pairwise_singleton _ _, ?_⟩
    intro a ha b hb
    simp only [List.mem_singleton] at hb
    subst hb
    simp only [newClaim]
    exact lt_of_lt_of_le (inv.timesLt a ha) hle
  · intro cl hcl
    simp only [claimSuccessState] at hcl
    rcases List.mem_append.mp hcl with h | h
    · exact lt_of_lt_of_le (inv.timesLt cl h) (by omega)
    · simp only [List.mem_singleton] at h
      subst h
      simp [newClaim]
  · intro cl hcl
    simp only [claimSuccessState] at hcl
    rcases List.mem_append.mp hcl with h | h
    · obtain ⟨c2, hc2, hname⟩ := inv.claimHasCoupon cl h
      exact ⟨claimUpdateRow o now c2,
        List.mem_map_of_mem _ hc2, by rw [claimUpdateRow_name]; exact hname⟩
    · simp only [List.mem_singleton] at h
      subst h
      refine ⟨claimUpdateRow o now c, List.mem_map_of_mem _ hcmem, ?_⟩
      rw [claimUpdateRow_name]
      simp [newClaim, hcname]

theorem inv_touch {db : DB} {t now : Nat} {name : String}
    (inv : StoreInv db t) (hle : t ≤ now) :
    StoreInv { db with coupons := db.coupons.map (touchRow name now) } (now + 1) := by
  refine ⟨?_, ?_, ?_, ?_, ?_, ?_, ?_, ?_⟩
  · rw [List.pairwise_map]
    exact inv.namesNodup.imp (fun hab => by simpa [touchRow_name] using hab)
  · exact inv.pairsNodup
  · intro c2 hc2
    simp only [List.mem_map] at hc2
    obtain ⟨x, hx, rfl⟩ := hc2
    rw [touchRow_remaining]
    exact inv.remNonneg x hx
  · intro c2 hc2
    simp only [List.mem_map] at hc2
    obtain ⟨x, hx, rfl⟩ := hc2
    rw [touchRow_remaining, touchRow_amount]
    exact inv.remLeAmount x hx
  · intro c2 hc2
    simp only [List.mem_map] at hc2
    obtain ⟨x, hx, rfl⟩ := hc2
    rw [touchRow_remaining, touchRow_amount, touchRow_name]
    exact inv.claimCount x hx
  · exact inv.timesMono
  · intro cl hcl
    exact lt_of_lt_of_le (inv.timesLt cl hcl) (by omega)
  · intro cl hcl
    obtain ⟨c2, hc2, hname⟩ := inv.claimHasCoupon cl hcl
    exact ⟨touchRow name now c2, List.mem_map_of_mem _ hc2, by rw [touchRow_name]; exact hname⟩

theorem inv_applyOp {db : DB} {t : Nat} (inv : StoreInv db t) (op : Op) (now : Nat)
    (hle : t ≤ now) : StoreInv (applyOp db op now) (now + 1) := by
  have hmono : StoreInv db (now + 1) := inv_mono_t inv (by omega)
  cases op with
  | getDetails name => exact hmono
  | create ef req =>
    simp only [applyOp, service.CreateCoupon]
    by_cases h1 : (req.name == "") = true
    · simp only [h1, if_true]
      exact hmono
    by_cases h2 : req.amount ≤ 0
    · simp only [h1, if_false, h2, if_true, Bool.false_eq_true]
      exact hmono
    simp only [h1, h2, if_false, Bool.false_eq_true]
    rcases CreateCoupon_snd_cases db ef req.name req.amount now with h | ⟨hfresh, heq⟩
    · rw [h]
      exact hmono
    · rw [heq]
      exact inv_create_success inv hle (by omega) hfresh
  | claim f req =>
    simp only [applyOp, service.ClaimCoupon]
    by_cases h1 : (req.user_id == "") = true
    · simp only [h1, if_true]
      exact hmono
    by_cases h2 : (req.coupon_name == "") = true
    · simp only [h1, h2, if_true, if_false, Bool.false_eq_true]
      exact hmono
    simp only [h1, h2, if_false, Bool.false_eq_true]
    rcases ClaimCoupon_cases db f req.user_id req.coupon_name now with ⟨_, h⟩ | ⟨c, hf, hr, hc, heq⟩
    · rw [h]
      exact hmono
    · rw [heq]
      exact inv_claim_success inv hle hf hr hc
  | update ef name =>
    simp only [applyOp, service.UpdateCoupon]
    by_cases h1 : (name == "") = true
    · simp only [h1, if_true]
      exact hmono
    simp only [h1, if_false, Bool.false_eq_true]
    rcases Update_snd_cases db ef name now with h | h
    · rw [h]
      exact hmono
    · rw [h]
      exact inv_touch inv hle

theorem inv_reachable {db : DB} {t : Nat} (h : Reachable db t) : StoreInv db t := by
  induction h with
  | init => exact inv_empty
  | step op now hr hle ih => exact inv_applyOp ih op now hle

theorem applyOp_create_mem {db : DB} {ef : Bool} {req : CreateCouponRequest} {now : Nat}
    {c2 : Coupon} (h : c2 ∈ (applyOp db (Op.create ef req) now).coupons) :
    c2 ∈ db.coupons
    ∨ (c2 = newCoupon db req.name req.amount now ∧ ∀ c ∈ db.coupons, c.name ≠ req.name) := by
  simp only [applyOp, service.CreateCoupon] at h
  by_cases h1 : (req.name == "") = true
  · simp only [h1, if_true] at h
    exact Or.inl h
  by_cases h2 : req.amount ≤ 0
  · simp only [h1, h2, if_true, if_false, Bool.false_eq_true] at h
    exact Or.inl h
  simp only [h1, h2, if_false, Bool.false_eq_true] at h
  rcases CreateCoupon_snd_cases db ef req.name req.amount now with hcase | ⟨hfresh, heq⟩
  · rw [hcase] at h
    exact Or.inl h
  · rw [heq] at h
    rcases List.mem_append.mp h with hmem | hmem
    · exact Or.inl hmem
    · simp only [List.mem_singleton] at hmem
      exact Or.inr ⟨hmem, hfresh⟩

theorem applyOp_claim_mem {db : DB} {f : ClaimFaults} {req : ClaimCouponRequest} {now : Nat}
    {c2 : Coupon} (h : c2 ∈ (applyOp db (Op.claim f req) now).coupons) :
    c2 ∈ db.coupons
    ∨ (∃ x ∈ db.coupons, x.name = req.coupon_name
        ∧ c2 = { x with remaining_amount := x.remaining_amount - 1, updated_at := now }) := by
  simp only [applyOp, service.ClaimCoupon] at h
  by_cases h1 : (req.user_id == "") = true
  · simp only [h1, if_true] at h
    exact Or.inl h
  by_cases h2 : (req.coupon_name == "") = true
  · simp only [h1, h2, if_true, if_false, Bool.false_eq_true] at h
    exact Or.inl h
  simp only [h1, h2, if_false, Bool.false_eq_true] at h
  rcases ClaimCoupon_cases db f req.user_id req.coupon_name now with ⟨_, hcase⟩ |
    ⟨c, hf, hr, hc, heq⟩
  · rw [hcase] at h
    exact Or.inl h
  · rw [heq] at h
    simp only [claimSuccessState, List.mem_map] at h
    obtain ⟨x, hx, rfl⟩ := h
    by_cases hxo : x.name = req.coupon_name
    · exact Or.inr ⟨x, hx, hxo, (claimUpdateRow_of_name_eq hxo).symm ▸ rfl⟩
    · rw [claimUpdateRow_of_name_ne hxo]
      exact Or.inl hx

theorem applyOp_update_mem {db : DB} {ef : Bool} {name : String} {now : Nat}
    {c2 : Coupon} (h : c2 ∈ (applyOp db (Op.update ef name) now).coupons) :
    ∃ x ∈ db.coupons, c2.name = x.name ∧ c2.amount = x.amount
      ∧ c2.remaining_amount = x.remaining_amount := by
  simp only [applyOp, service.UpdateCoupon] at h
  by_cases h1 : (name == "") = true
  · simp only [h1, if_true] at h
    exact ⟨c2, h, rfl, rfl, rfl⟩
  simp only [h1, if_false, Bool.false_eq_true] at h
  rcases Update_snd_cases db ef name now with hcase | hcase
  · rw [hcase] at h
    exact ⟨c2, h, rfl, rfl, rfl⟩
  · rw [hcase] at h
    simp only [List.mem_map] at h
    obtain ⟨x, hx, rfl⟩ := h
    exact ⟨x, hx, touchRow_name _ _ _, touchRow_amount _ _ _, touchRow_remaining _ _ _⟩

theorem exDb2_reachable : Reachable exDb2 2 := by
  have h1 : Reachable exDb1 1 :=
    Reachable.step (Op.create false { name := "FLASH25", amount := 2 }) 0
      Reachable.init (Nat.le_refl 0)
  exact Reachable.step
    (Op.claim ClaimFaults.noFaults { user_id := "alice", coupon_name := "FLASH25" }) 1
    h1 (Nat.le_refl 1)

theorem exSolo2_reachable : Reachable exSolo2 2 := by
  have h1 : Reachable exSolo1 1 :=
    Reachable.step (Op.create false { name := "SOLO", amount := 1 }) 0
      Reachable.init (Nat.le_refl 0)
  exact Reachable.step
    (Op.claim ClaimFaults.noFaults { user_id := "carol", coupon_name := "SOLO" }) 1
    h1 (Nat.le_refl 1)

/-- C1: in every reachable store state every coupon satisfies
0 ≤ remaining_amount ≤ amount; remaining_amount is non-increasing across every
operation; the touch update and the describe read leave it unchanged; and a
create leaves existing rows untouched and sets the new row's remaining_amount
to the requested quantity.  Together with monotonicity this means no claim
ever drives it below zero. -/
theorem c1_remaining_quantity_invariant (db : DB) (t : Nat) (h : Reachable db t) :
    (∀ c ∈ db.coupons, 0 ≤ c.remaining_amount ∧ c.remaining_amount ≤ c.amount)
    ∧ (∀ op now c2, c2 ∈ (applyOp db op now).coupons →
        ∀ c1 ∈ db.coupons, c1.name = c2.name → c2.remaining_amount ≤ c1.remaining_amount)
    ∧ (∀ ef name now c2, c2 ∈ (applyOp db (Op.update ef name) now).coupons →
        ∀ c1 ∈ db.coupons, c1.name = c2.name → c2.remaining_amount = c1.remaining_amount)
    ∧ (∀ name now, applyOp db (Op.getDetails name) now = db)
    ∧ (∀ ef req now c2, c2 ∈ (applyOp db (Op.create ef req) now).coupons →
        c2 ∈ db.coupons ∨ c2.remaining_amount = req.amount) := by
  have inv := inv_reachable h
  refine ⟨fun c hc => ⟨inv.remNonneg c hc, inv.remLeAmount c hc⟩, ?_, ?_, fun _ _ => rfl, ?_⟩
  · intro op now c2 hc2 c1 hc1 hname
    cases op with
    | getDetails name =>
      have : c1 = c2 := eq_of_pairwise_names inv.namesNodup hc1 hc2 hname
      rw [this]
    | create ef req =>
      rcases applyOp_create_mem hc2 with hmem | ⟨hnew, hfresh⟩
      · have : c1 = c2 := eq_of_pairwise_names inv.namesNodup hc1 hmem hname
        rw [this]
      · exact absurd (hname.trans (by rw [hnew]; rfl)) (hfresh c1 hc1)
    | claim f req =>
      rcases applyOp_claim_mem hc2 with hmem | ⟨x, hx, hxnm, hc2eq⟩
      · have : c1 = c2 := eq_of_pairwise_names inv.namesNodup hc1 hmem hname
        rw [this]
      · have hname2 : c1.name = x.name := by rw [hname, hc2eq]
        have : c1 = x := eq_of_pairwise_names inv.namesNodup hc1 hx hname2
        rw [this, hc2eq]
        show x.remaining_amount - 1 ≤ x.remaining_amount
        omega
    | update ef name =>
      obtain ⟨x, hx, hn, _, hrem⟩ := applyOp_update_mem hc2
      have : c1 = x := eq_of_pairwise_names inv.namesNodup hc1 hx (hname.trans hn)
      rw [this, hrem]
  · intro ef name now c2 hc2 c1 hc1 hname
    obtain ⟨x, hx, hn, _, hrem⟩ := applyOp_update_mem hc2
    have : c1 = x := eq_of_pairwise_names inv.namesNodup hc1 hx (hname.trans hn)
    rw [this, hrem]
  · intro ef req now c2 hc2
    rcases applyOp_create_mem hc2 with hmem | ⟨hnew, _⟩
    · exact Or.inl hmem
    · exact Or.inr (by rw [hnew]; rfl)

theorem c1_remaining_quantity_invariant_witness :
    0 ≤ exCoupon2.remaining_amount ∧ exCoupon2.remaining_amount ≤ exCoupon2.amount :=
  (c1_remaining_quantity_invariant exDb2 2 exDb2_reachable).1 exCoupon2 (by decide)

/-- C3: from a state where the coupon exists with positive stock and the
(user, coupon) pair has no ledger row, a fault-free claim succeeds, decrements
that coupon's remaining_amount by exactly one and refreshes its updated_at
(all other fields intact), leaves every other coupon row in place, and appends
exactly one claim row for the pair, leaving the prior ledger untouched. -/
theorem c3_successful_claim_effects (db : DB) (u o : String) (now : Nat) (c : Coupon)
    (hf : findCoupon db o = some c) (hs : 0 < c.remaining_amount)
    (hc : hasClaim db u o = false) :
    (repository.ClaimCoupon db ClaimFaults.noFaults u o now).1 = none
    ∧ findCoupon (repository.ClaimCoupon db ClaimFaults.noFaults u o now).2 o =
        some { c with remaining_amount := c.remaining_amount - 1, updated_at := now }
    ∧ (∀ c2 ∈ db.coupons, c2.name ≠ o →
        c2 ∈ (repository.ClaimCoupon db ClaimFaults.noFaults u o now).2.coupons)
    ∧ (repository.ClaimCoupon db ClaimFaults.noFaults u o now).2.coupons.length
        = db.coupons.length
    ∧ (repository.ClaimCoupon db ClaimFaults.noFaults u o now).2.claims
        = db.claims ++ [newClaim db u o now] := by
  rw [ClaimCoupon_eq_success hf hs hc]
  refine ⟨rfl, ?_, ?_, ?_, rfl⟩
  · show findCoupon (claimSuccessState db u o now) o = _
    unfold findCoupon claimSuccessState
    rw [find?_map_name _ _ (claimUpdateRow_name o now) o]
    show (findCoupon db o).map _ = _
    rw [hf, Option.map]
    rw [claimUpdateRow_of_name_eq (findCoupon_name hf)]
  · intro c2 hc2 hne
    show c2 ∈ (claimSuccessState db u o now).coupons
    unfold claimSuccessState
    rw [show c2 = claimUpdateRow o now c2 from (claimUpdateRow_of_name_ne hne).symm]
    exact List.mem_map_of_mem _ hc2
  · show (claimSuccessState db u o now).coupons.length = _
    unfold claimSuccessState
    exact List.length_map _ _

theorem c3_successful_claim_effects_witness :
    (repository.ClaimCoupon exDb1 ClaimFaults.noFaults "alice" "FLASH25" 1).1 = none
    ∧ findCoupon (repository.ClaimCoupon exDb1 ClaimFaults.noFaults "alice" "FLASH25" 1).2
        "FLASH25"
        = some { exCoupon1 with remaining_amount := exCoupon1.remaining_amount - 1, updated_at := 1 }
    ∧ (repository.ClaimCoupon exDb1 ClaimFaults.noFaults "alice" "FLASH25" 1).2.claims
        = exDb1.claims ++ [newClaim exDb1 "alice" "FLASH25" 1] := by
  have h := c3_successful_claim_effects exDb1 "alice" "FLASH25" 1 exCoupon1
    (by decide) (by decide) (by decide)
  exact ⟨h.1, h.2.1, h.2.2.2.2⟩

/-- C4: a claim call that returns any error, be it a domain error or an
injected infrastructure fault at any of the five fallible steps, leaves the
store exactly as it was: the transaction rolls back and no partial state
survives. -/
theorem c4_failed_claim_rolls_back (db : DB) (f : ClaimFaults) (u o : String) (now : Nat)
    (h : (repository.ClaimCoupon db f u o now).1 ≠ none) :
    (repository.ClaimCoupon db f u o now).2 = db := by
  rcases ClaimCoupon_cases db f u o now with ⟨_, h2⟩ | ⟨c, _, _, _, heq⟩
  · rw [h2]
  · rw [heq] at h
    simp at h

theorem c4_failed_claim_rolls_back_witness :
    (repository.ClaimCoupon exDb2 ClaimFaults.noFaults "alice" "FLASH25" 3).2 = exDb2 :=
  c4_failed_claim_rolls_back exDb2 ClaimFaults.noFaults "alice" "FLASH25" 3 (by decide)

/-- C5: a fault-free claim returns the not-found error exactly when no coupon
with that name exists (existence is checked before anything else and leaves
the store unchanged); when the coupon exists but has no stock the call returns
the out-of-stock error with the store unchanged, regardless of any ledger row
for the pair (stock is checked before the ledger insert); and the describe
read of a nonexistent coupon returns the same not-found error. -/
theorem c5_not_found_and_out_of_stock_order (db : DB) (u o : String) (now : Nat) :
    ((repository.ClaimCoupon db ClaimFaults.noFaults u o now).1 = some GoErr.couponNotFound
      ↔ findCoupon db o = none)
    ∧ (findCoupon db o = none →
        repository.ClaimCoupon db ClaimFaults.noFaults u o now
          = (some GoErr.couponNotFound, db))
    ∧ (∀ c, findCoupon db o = some c → c.remaining_amount ≤ 0 →
        repository.ClaimCoupon db ClaimFaults.noFaults u o now
          = (some GoErr.noStockAvailable, db))
    ∧ (repository.GetCouponByName db o = Except.error GoErr.couponNotFound
      ↔ findCoupon db o = none) := by
  refine ⟨⟨?_, fun h => by rw [ClaimCoupon_eq_notFound h]⟩,
    fun h => ClaimCoupon_eq_notFound h,
    fun c hf hr => ClaimCoupon_eq_outOfStock hf hr, ?_⟩
  · intro h
    cases hfind : findCoupon db o with
    | none => rfl
    | some c =>
      exfalso
      by_cases hrem : c.remaining_amount ≤ 0
      · rw [ClaimCoupon_eq_outOfStock hfind hrem] at h
        simp at h
      by_cases hcl : hasClaim db u o = true
      · rw [ClaimCoupon_eq_alreadyClaimed hfind (by omega) hcl] at h
        simp at h
      · rw [ClaimCoupon_eq_success hfind (by omega) (by simpa using hcl)] at h
        simp at h
  · unfold repository.GetCouponByName
    cases hfind : findCoupon db o with
    | none => simp
    | some c => simp

theorem c5_not_found_and_out_of_stock_order_witness :
    repository.ClaimCoupon DB.empty ClaimFaults.noFaults "dave" "GHOST" 0
      = (some GoErr.couponNotFound, DB.empty)
    ∧ repository.ClaimCoupon exSolo2 ClaimFaults.noFaults "dave" "SOLO" 3
      = (some GoErr.noStockAvailable, exSolo2) :=
  ⟨(c5_not_found_and_out_of_stock_order DB.empty "dave" "GHOST" 0).2.1 (by decide),
   (c5_not_found_and_out_of_stock_order exSolo2 "dave" "SOLO" 3).2.2.1 exSoloCoupon
     (by decide) (by decide)⟩

/-- C2 as stated is false: carol holds the only SOLO unit, so a ledger row
for (carol, SOLO) exists, yet her retried claim is rejected by the stock check
before the insert ever runs, returning the out-of-stock error instead of the
already-claimed error. -/
theorem c2_counterexample :
    hasClaim exSolo2 "carol" "SOLO" = true
    ∧ (repository.ClaimCoupon exSolo2 ClaimFaults.noFaults "carol" "SOLO" 3).1
        = some GoErr.noStockAvailable
    ∧ (repository.ClaimCoupon exSolo2 ClaimFaults.noFaults "carol" "SOLO" 3).1
        ≠ some GoErr.alreadyClaimed := by decide

/-- C2 amended: in every reachable state the ledger never holds two rows for
the same (user, coupon) pair; once a row for the pair exists no claim call for
it can ever succeed again, under any fault pattern; and the repeated claim is
rejected by the uniqueness constraint with the already-claimed error whenever
the coupon still has stock (when stock is exhausted the stock check fires
first and returns the out-of-stock error). -/
theorem c2_amended_no_double_claim (db : DB) (t : Nat) (h : Reachable db t) :
    db.claims.Pairwise (fun a b => a.user_id ≠ b.user_id ∨ a.coupon_name ≠ b.coupon_name)
    ∧ (∀ f u o now, hasClaim db u o = true →
        (repository.ClaimCoupon db f u o now).1 ≠ none)
    ∧ (∀ u o now c, hasClaim db u o = true → findCoupon db o = some c →
        0 < c.remaining_amount →
        repository.ClaimCoupon db ClaimFaults.noFaults u o now
          = (some GoErr.alreadyClaimed, db)) := by
  have inv := inv_reachable h
  refine ⟨inv.pairsNodup, ?_,
    fun u o now c hc hf hr => ClaimCoupon_eq_alreadyClaimed hf hr hc⟩
  intro f u o now hc
  rcases ClaimCoupon_cases db f u o now with ⟨hne, _⟩ | ⟨c, _, _, hcf, _⟩
  · exact hne
  · simp [hc] at hcf

theorem c2_amended_no_double_claim_witness :
    repository.ClaimCoupon exDb2 ClaimFaults.noFaults "alice" "FLASH25" 4
      = (some GoErr.alreadyClaimed, exDb2) :=
  (c2_amended_no_double_claim exDb2 2 exDb2_reachable).2.2 "alice" "FLASH25" 4 exCoupon2
    (by decide) (by decide) (by decide)

/-- C6 as stated is false: bob exhausted BOGO with his own successful claim,
and his retry returns the out-of-stock error, not the already-claimed error,
because the stock check runs before the ledger insert. -/
theorem c6_counterexample :
    hasClaim exBogo2 "bob" "BOGO" = true
    ∧ (repository.ClaimCoupon exBogo2 ClaimFaults.noFaults "bob" "BOGO" 5).1
        ≠ some GoErr.alreadyClaimed
    ∧ (repository.ClaimCoupon exBogo2 ClaimFaults.noFaults "bob" "BOGO" 5).1
        = some GoErr.noStockAvailable := by decide

/-- C6 amended: a retried claim by a claimant who already holds a ledger row
for the coupon never succeeds: it returns the already-claimed error when the
coupon's remaining_amount is positive, the out-of-stock error when the stock
is exhausted, and a non-nil error under every fault pattern. -/
theorem c6_amended_retry_never_succeeds (db : DB) (u o : String) (now : Nat) (c : Coupon)
    (hf : findCoupon db o = some c) (hc : hasClaim db u o = true) :
    (0 < c.remaining_amount →
      repository.ClaimCoupon db ClaimFaults.noFaults u o now
        = (some GoErr.alreadyClaimed, db))
    ∧ (c.remaining_amount ≤ 0 →
      repository.ClaimCoupon db ClaimFaults.noFaults u o now
        = (some GoErr.noStockAvailable, db))
    ∧ (∀ f, (repository.ClaimCoupon db f u o now).1 ≠ none) := by
  refine ⟨fun hr => ClaimCoupon_eq_alreadyClaimed hf hr hc,
          fun hr => ClaimCoupon_eq_outOfStock hf hr, ?_⟩
  intro f
  rcases ClaimCoupon_cases db f u o now with ⟨hne, _⟩ | ⟨c2, _, _, hcf, _⟩
  · exact hne
  · simp [hc] at hcf

theorem c6_amended_retry_never_succeeds_witness :
    repository.ClaimCoupon exSolo2 ClaimFaults.noFaults "carol" "SOLO" 4
      = (some GoErr.noStockAvailable, exSolo2) :=
  (c6_amended_retry_never_succeeds exSolo2 "carol" "SOLO" 4 exSoloCoupon
    (by decide) (by decide)).2.1 (by decide)

theorem touchRow_of_name_ne {o : String} {now : Nat} {c : Coupon} (h : c.name ≠ o) :
    touchRow o now c = c := by
  unfold touchRow; simp [h]

/-- C7 as stated is false: touching a nonexistent coupon does not return the
not-found error; the repository returns a zero rows-affected count with a nil
error and the store unchanged. -/
theorem c7_counterexample :
    findCoupon DB.empty "GHOST" = none
    ∧ repository.Update DB.empty false "GHOST" 7 = ((0, none), DB.empty)
    ∧ (repository.Update DB.empty false "GHOST" 7).1.2 ≠ some GoErr.couponNotFound := by
  refine ⟨rfl, ?_, by decide⟩
  rw [Update_eq]
  rfl

/-- C7 amended: touching an existing coupon refreshes its updated_at (all
other rows and the ledger untouched) and returns rows-affected 1; touching a
nonexistent coupon returns rows-affected 0 with a nil error and leaves the
store unchanged; the repository never produces the not-found error for this
operation, no matter whether the driver call fails. -/
theorem c7_amended_touch (db : DB) (name : String) (now : Nat)
    (hn : db.coupons.Pairwise (fun a b => a.name ≠ b.name)) :
    (∀ c, findCoupon db name = some c →
      (repository.Update db false name now).1 = (1, none)
      ∧ findCoupon (repository.Update db false name now).2 name
          = some { c with updated_at := now }
      ∧ (repository.Update db false name now).2.claims = db.claims)
    ∧ (findCoupon db name = none → repository.Update db false name now = ((0, none), db))
    ∧ (∀ ef, (repository.Update db ef name now).1.2 ≠ some GoErr.couponNotFound) := by
  refine ⟨?_, ?_, ?_⟩
  · intro c hf
    rw [Update_eq]
    refine ⟨?_, ?_, rfl⟩
    · have hflt : db.coupons.filter (fun x => x.name == name) = [c] :=
        filter_name_eq_singleton hn hf
      rw [hflt]
      rfl
    · show findCoupon { db with coupons := db.coupons.map (touchRow name now) } name = _
      unfold findCoupon
      rw [find?_map_name _ _ (touchRow_name name now) name]
      show (findCoupon db name).map _ = _
      rw [hf, Option.map]
      rw [touchRow_of_name_eq (findCoupon_name hf)]
  · intro h
    rw [Update_eq]
    have hflt : db.coupons.filter (fun c => c.name == name) = [] := by
      rw [List.filter_eq_nil_iff]
      intro c hc
      simpa using findCoupon_eq_none.mp h c hc
    have hmap : db.coupons.map (touchRow name now) = db.coupons := by
      rw [show db.coupons.map (touchRow name now) = db.coupons.map id from
        List.map_congr_left (fun c hc => touchRow_of_name_ne (findCoupon_eq_none.mp h c hc))]
      exact List.map_id _
    rw [hflt, hmap]
    rfl
  · intro ef
    unfold repository.Update
    by_cases he : ef = true
    · simp [he]
    · simp [he]

theorem c7_amended_touch_witness :
    (repository.Update exDb1 false "FLASH25" 5).1 = (1, none)
    ∧ findCoupon (repository.Update exDb1 false "FLASH25" 5).2 "FLASH25"
        = some { exCoupon1 with updated_at := 5 } :=
  have h := (c7_amended_touch exDb1 "FLASH25" 5 (by decide)).1 exCoupon1 (by decide)
  ⟨h.1, h.2.1⟩

/-- C8: a fault-free create returns the already-exists error precisely when a
coupon with that name is present (the store is then unchanged under any fault
pattern), and otherwise appends exactly one coupon row whose amount and
remaining_amount both equal the requested quantity, leaving the ledger
untouched. -/
theorem c8_create_uniqueness (db : DB) (name : String) (amount : Int) (now : Nat) :
    ((repository.CreateCoupon db false name amount now).1 = some GoErr.couponAlreadyExists
      ↔ ∃ c ∈ db.coupons, c.name = name)
    ∧ (∀ ef, (∃ c ∈ db.coupons, c.name = name) →
        repository.CreateCoupon db ef name amount now = (some GoErr.couponAlreadyExists, db))
    ∧ ((∀ c ∈ db.coupons, c.name ≠ name) →
        repository.CreateCoupon db false name amount now
          = (none, { db with coupons := db.coupons ++ [newCoupon db name amount now],
                             nextCouponId := db.nextCouponId + 1 }))
    ∧ (newCoupon db name amount now).remaining_amount = amount
    ∧ (newCoupon db name amount now).amount = amount := by
  refine ⟨⟨?_, fun h => by rw [CreateCoupon_of_exists amount now false h]⟩,
    fun ef h => CreateCoupon_of_exists amount now ef h,
    fun h => CreateCoupon_of_fresh amount now h, rfl, rfl⟩
  intro h
  by_contra hne
  push_neg at hne
  rw [CreateCoupon_of_fresh amount now hne] at h
  simp at h

theorem c8_create_uniqueness_witness :
    repository.CreateCoupon DB.empty false "NEW10" 3 0
      = (none, { DB.empty with
                   coupons := DB.empty.coupons ++ [newCoupon DB.empty "NEW10" 3 0],
                   nextCouponId := DB.empty.nextCouponId + 1 })
    ∧ repository.CreateCoupon exDb1 false "FLASH25" 9 4
      = (some GoErr.couponAlreadyExists, exDb1) :=
  ⟨(c8_create_uniqueness DB.empty "NEW10" 3 0).2.2.1 (by decide),
   (c8_create_uniqueness exDb1 "FLASH25" 9 4).2.1 false (by decide)⟩

/-- C9: in any reachable state (no claim in flight, since operations are
serialized), describing an existing coupon returns its fields verbatim
together with the claimant list in ledger insertion order (the ORDER BY on
claimed_at is the identity because timestamps strictly increase along the
ledger); the list's length equals amount - remaining_amount and it contains
no duplicate claimant identity. -/
theorem c9_describe_consistency (db : DB) (t : Nat) (name : String) (c : Coupon)
    (h : Reachable db t) (hf : findCoupon db name = some c) :
    repository.GetCouponByName db name = Except.ok
      { name := c.name, amount := c.amount, remaining_amount := c.remaining_amount,
        claimed_by := (db.claims.filter (fun cl => cl.coupon_name == name)).map
          (fun cl => cl.user_id) }
    ∧ (((db.claims.filter (fun cl => cl.coupon_name == name)).map
          (fun cl => cl.user_id)).length : Int) = c.amount - c.remaining_amount
    ∧ ((db.claims.filter (fun cl => cl.coupon_name == name)).map
        (fun cl => cl.user_id)).Nodup := by
  have inv := inv_reachable h
  refine ⟨?_, ?_, ?_⟩
  · have hsorted : (db.claims.filter (fun cl => cl.coupon_name == name)).Sorted
        (fun a b => a.claimed_at ≤ b.claimed_at) := by
      have hp : (db.claims.filter (fun cl => cl.coupon_name == name)).Pairwise
          (fun a b => a.claimed_at < b.claimed_at) :=
        List.Pairwise.sublist (List.filter_sublist db.claims) inv.timesMono
      exact hp.imp (fun hab => le_of_lt hab)
    unfold repository.GetCouponByName
    rw [hf, List.Sorted.insertionSort_eq hsorted]
  · rw [List.length_map]
    have hcnt := inv.claimCount c (findCoupon_mem hf)
    rw [findCoupon_name hf] at hcnt
    exact hcnt
  · have hpairs : (db.claims.filter (fun cl => cl.coupon_name == name)).Pairwise
        (fun a b => a.user_id ≠ b.user_id) := by
      have hpw : (db.claims.filter (fun cl => cl.coupon_name == name)).Pairwise
          (fun a b => a.user_id ≠ b.user_id ∨ a.coupon_name ≠ b.coupon_name) :=
        List.Pairwise.sublist (List.filter_sublist db.claims) inv.pairsNodup
      refine hpw.imp_of_mem ?_
      intro a b ha hb hab
      have haname : a.coupon_name = name := by
        simpa using (List.mem_filter.mp ha).2
      have hbname : b.coupon_name = name := by
        simpa using (List.mem_filter.mp hb).2
      rcases hab with h1 | h1
      · exact h1
      · exact absurd (haname.trans hbname.symm) h1
    exact List.Pairwise.map _ (fun a b hab => hab) hpairs

theorem c9_describe_consistency_witness :
    repository.GetCouponByName exDb2 "FLASH25" = Except.ok
      { name := exCoupon2.name, amount := exCoupon2.amount,
        remaining_amount := exCoupon2.remaining_amount,
        claimed_by := (exDb2.claims.filter (fun cl => cl.coupon_name == "FLASH25")).map
          (fun cl => cl.user_id) }
    ∧ ((exDb2.claims.filter (fun cl => cl.coupon_name == "FLASH25")).map
        (fun cl => cl.user_id)).Nodup :=
  have h := c9_describe_consistency exDb2 2 "FLASH25" exCoupon2 exDb2_reachable (by decide)
  ⟨h.1, h.2.2⟩

/-- C10: the service layer rejects a create request with an empty name or a
non-positive amount, a claim request with an empty user id or coupon name, and
a details or touch request with an empty name, each with the corresponding
validation error and without touching the store (the returned state is the
caller's state, the repository is never invoked). -/
theorem c10_service_validation (db : DB) (now : Nat) :
    (∀ ef amount, service.CreateCoupon db ef { name := "", amount := amount } now
        = (some (GoErr.validation "coupon name is required"), db))
    ∧ (∀ ef req, req.name ≠ "" → req.amount ≤ 0 →
        service.CreateCoupon db ef req now
          = (some (GoErr.validation "coupon amount must be greater than 0"), db))
    ∧ (∀ f cname, service.ClaimCoupon db f { user_id := "", coupon_name := cname } now
        = (some (GoErr.validation "user_id is required"), db))
    ∧ (∀ f uid, uid ≠ "" →
        service.ClaimCoupon db f { user_id := uid, coupon_name := "" } now
          = (some (GoErr.validation "coupon_name is required"), db))
    ∧ service.GetCouponDetails db ""
        = Except.error (GoErr.validation "coupon name is required")
    ∧ (∀ ef, service.UpdateCoupon db ef "" now
        = ((0, some (GoErr.validation "coupon name is required")), db)) := by
  refine ⟨?_, ?_, ?_, ?_, ?_, ?_⟩
  · intro ef amount
    simp [service.CreateCoupon]
  · intro ef req h1 h2
    simp [service.CreateCoupon, h1, h2]
  · intro f cname
    simp [service.ClaimCoupon]
  · intro f uid h1
    simp [service.ClaimCoupon, h1]
  · simp [service.GetCouponDetails]
  · intro ef
    simp [service.UpdateCoupon]

theorem c10_service_validation_witness :
    service.CreateCoupon DB.empty false { name := "", amount := 5 } 0
      = (some (GoErr.validation "coupon name is required"), DB.empty)
    ∧ service.CreateCoupon DB.empty false { name := "X", amount := 0 } 0
      = (some (GoErr.validation "coupon amount must be greater than 0"), DB.empty)
    ∧ service.ClaimCoupon DB.empty ClaimFaults.noFaults { user_id := "", coupon_name := "C" } 0
      = (some (GoErr.validation "user_id is required"), DB.empty)
    ∧ service.ClaimCoupon DB.empty ClaimFaults.noFaults { user_id := "u", coupon_name := "" } 0
      = (some (GoErr.validation "coupon_name is required"), DB.empty)
    ∧ service.GetCouponDetails DB.empty ""
      = Except.error (GoErr.validation "coupon name is required")
    ∧ service.UpdateCoupon DB.empty false "" 0
      = ((0, some (GoErr.validation "coupon name is required")), DB.empty) :=
  have h := c10_service_validation DB.empty 0
  ⟨h.1 false 5, h.2.1 false { name := "X", amount := 0 } (by decide) (by decide),
   h.2.2.1 ClaimFaults.noFaults "C", h.2.2.2.1 ClaimFaults.noFaults "u" (by decide),
   h.2.2.2.2.1, h.2.2.2.2.2 false⟩
